import Mathlib

/-!
Verification development for the `sol-cli` deploy command
(`src/packages/sol-cli/cmd/deploy.js`).

The command is embedded shallowly: the mutable `args` object of the CLI
action becomes the `Args` record, the RPC provider becomes an `Env` oracle
holding the queued responses of successive balance queries and contract
deployments, and every network call and console line is recorded in an
event trace.  JavaScript exceptions become `Except` values that carry the
state at the moment of the throw (a JS `throw` does not roll the mutated
`args` object back).
-/

namespace EthDeploy

/-- The contract kinds the deploy command can create. -/
inductive ContractKind
  | bridge
  | erc20Handler
  | genericHandler
  | erc20
  | asset
  deriving DecidableEq, Repr

/-- Constructor argument lists as passed to `factory.deploy(...)` in
`deploy.js` (gas overrides excluded).  Each constructor of this type
corresponds to one contract kind. -/
inductive CtorArgs
  | bridgeArgs (chainId : Nat) (relayers : List String) (relayerThreshold : Nat)
      (fee : Int) (expiry : Nat)
  | erc20HandlerArgs (bridgeAddr : String) (l1 l2 l3 : List String)
  | genericHandlerArgs (bridgeAddr : String) (l1 l2 l3 l4 : List String)
  | erc20Args (name symbol : String) (decimals : Nat)
  | assetArgs
  deriving DecidableEq, Repr

/-- Observable events of one invocation: network calls
(`provider.getBalance`, `factory.deploy`, `contract.deployed()`),
the recording of a confirmed contract address into the context, and
`console.log` lines. -/
inductive Event
  | balanceQuery (addr : String)
  | deployTx (ca : CtorArgs)
  | confirmPoll (kind : ContractKind)
  | recorded (kind : ContractKind) (addr : String)
  | log (msg : String)
  deriving DecidableEq, Repr

/-- `true` exactly for the events that are network calls. -/
def Event.isNetwork : Event → Bool
  | Event.balanceQuery _ => true
  | Event.deployTx _ => true
  | Event.confirmPoll _ => true
  | _ => false

/-- The failure modes of the action: the explicit no-target throw of
line 81, any RPC/transaction failure, and a malformed `--fee` value
(`ethers.utils.parseEther` throws). -/
inductive DeployError
  | noTargetSpecified
  | networkError
  | feeParseError
  deriving DecidableEq, Repr

/-- Oracle outcome of one `factory.deploy` / `contract.deployed()` pair:
confirmed at an address, rejected at submission, or failed during
confirmation. -/
inductive DeployOutcome
  | ok (addr : String)
  | submitFail
  | confirmFail
  deriving DecidableEq, Repr

/-- The CLI `args` object after `setupParentArgs`: the option flags and
values of `deployCmd`, the resolved connection data, and the output fields
that the deploy functions mutate in place (`bridgeAddress`,
`erc20HandlerContract`, `genericHandlerContract`, `erc20Contract`,
`ChainAssetContract`, `cost`).  `bridgeAddress` doubles as the
`--bridgeAddress` input flag (default `""`). -/
structure Args where
  all : Bool
  bridge : Bool
  erc20Handler : Bool
  genericHandler : Bool
  erc20 : Bool
  asset : Bool
  config : Bool
  chainId : Nat
  relayers : List String
  relayerThreshold : Nat
  fee : String
  expiry : Nat
  erc20Name : String
  erc20Symbol : String
  erc20Decimals : Nat
  gasPrice : Int
  gasLimit : Int
  url : String
  walletAddress : String
  bridgeAddress : String
  erc20HandlerContract : Option String
  genericHandlerContract : Option String
  erc20Contract : Option String
  ChainAssetContract : Option String
  cost : Option Int
  deriving DecidableEq, Repr

/-- The RPC environment: queued responses of successive balance queries
and of successive contract deployments. -/
structure Env where
  balances : List Int
  deploys : List DeployOutcome
  deriving DecidableEq, Repr

/-- Execution state of one invocation: the mutable `args` object, the
remaining oracle, and the trace of events so far. -/
structure St where
  args : Args
  env : Env
  trace : List Event
  deriving DecidableEq, Repr

/-- Result of a step: success, or a thrown error carrying the state at the
moment of the throw. -/
abbrev DRes := Except (DeployError × St) St

/-- The state a result carries, whether it succeeded or threw. -/
def resSt : DRes → St
  | Except.ok s => s
  | Except.error (_, s) => s

/-- Append one `console.log` line to the trace. -/
def pushLog (s : St) (m : String) : St :=
  { s with trace := s.trace ++ [Event.log m] }

/-- Model of `provider.getBalance(wallet.address)`: consumes the next
queued balance; an exhausted queue is an RPC failure. -/
def getBalance (s : St) : Except (DeployError × St) (Int × St) :=
  let s1 := { s with trace := s.trace ++ [Event.balanceQuery s.args.walletAddress] }
  match s1.env.balances with
  | [] => Except.error (DeployError.networkError, s1)
  | b :: rest => Except.ok (b, { s1 with env := { s1.env with balances := rest } })

/-- Model of `factory.deploy(...)` followed by `await contract.deployed()`:
records the submitted transaction, consumes the next queued outcome, and on
confirmation yields the new contract address. -/
def deployAndConfirm (kind : ContractKind) (ca : CtorArgs) (s : St) :
    Except (DeployError × St) (String × St) :=
  let s1 := { s with trace := s.trace ++ [Event.deployTx ca] }
  match s1.env.deploys with
  | [] => Except.error (DeployError.networkError, s1)
  | o :: rest =>
    let s2 := { s1 with env := { s1.env with deploys := rest } }
    match o with
    | DeployOutcome.submitFail => Except.error (DeployError.networkError, s2)
    | DeployOutcome.confirmFail =>
        Except.error (DeployError.networkError,
          { s2 with trace := s2.trace ++ [Event.confirmPoll kind] })
    | DeployOutcome.ok addr =>
        Except.ok (addr, { s2 with trace := s2.trace ++ [Event.confirmPoll kind] })

/-- `true` iff `c` is a hexadecimal digit. -/
def isHexChar (c : Char) : Bool :=
  c.isDigit || (('a' ≤ c) && (c ≤ 'f')) || (('A' ≤ c) && (c ≤ 'F'))

/-- Modelled from the spec: `isValidAddress` from `cmd/utils.js` (the file
is not under src/; only its caller `deploy.js` is).  Per the spec a
syntactically valid bridge address is a fixed-length hex string with the
chain's address prefix: `0x` followed by exactly 40 hex digits. -/
def isValidAddress (s : String) : Bool :=
  match s.toList with
  | '0' :: 'x' :: rest => (rest.length == 40) && rest.all isHexChar
  | _ => false

/-- Split a character list at every dot, as `String.splitOn "."` does. -/
def splitOnDot : List Char → List (List Char)
  | [] => [[]]
  | c :: cs =>
    match splitOnDot cs with
    | [] => [[]]
    | h :: t => if c = '.' then [] :: h :: t else (c :: h) :: t

/-- Numeric value of a digit list (an empty list counts as 0, matching
the `comps[i] || "0"` defaulting of the ethers parser). -/
def digitsVal (l : List Char) : Nat :=
  l.foldl (fun n c => n * 10 + (c.toNat - 48)) 0

/-- Model of `ethers.utils.parseEther` (external library): a base-currency
decimal string becomes a smallest-unit (wei) integer, scaling by `10 ^ 18`;
malformed input (more than one dot, a non-digit, or more than 18 fractional
digits) throws, modelled as `none`. -/
def parseEther (str : String) : Option Int :=
  let core := fun (l : List Char) =>
    match splitOnDot l with
    | [w] => if w.all Char.isDigit then some (digitsVal w * 10 ^ 18) else none
    | [w, f] =>
      if w.all Char.isDigit ∧ f.all Char.isDigit ∧ f.length ≤ 18 then
        some (digitsVal w * 10 ^ 18 + digitsVal f * 10 ^ (18 - f.length))
      else none
    | _ => none
  match str.toList with
  | '-' :: rest => (core rest).map (fun n => -(n : Int))
  | l => (core l).map (fun n => (n : Int))

/-- Lines 152-172: deploy the Bridge contract with
`(chainId, relayers, relayerThreshold, parseEther(fee), expiry)` and on
confirmation record its address into `args.bridgeAddress`. -/
def deployBridgeContract (s : St) : DRes :=
  match parseEther s.args.fee with
  | none => Except.error (DeployError.feeParseError, s)
  | some f =>
    match deployAndConfirm ContractKind.bridge
        (CtorArgs.bridgeArgs s.args.chainId s.args.relayers s.args.relayerThreshold
          f s.args.expiry) s with
    | Except.error e => Except.error e
    | Except.ok (addr, s1) =>
      Except.ok (pushLog
        { s1 with args := { s1.args with bridgeAddress := addr },
                  trace := s1.trace ++ [Event.recorded ContractKind.bridge addr] }
        ("✓ Bridge contract deployed"))

/-- Lines 174-189: deploy the ERC20 token contract with
`(erc20Name, erc20Symbol, erc20Decimals)`. -/
def deployERC20 (s : St) : DRes :=
  match deployAndConfirm ContractKind.erc20
      (CtorArgs.erc20Args s.args.erc20Name s.args.erc20Symbol s.args.erc20Decimals) s with
  | Except.error e => Except.error e
  | Except.ok (addr, s1) =>
    Except.ok (pushLog
      { s1 with args := { s1.args with erc20Contract := some addr },
                trace := s1.trace ++ [Event.recorded ContractKind.erc20 addr] }
      ("✓ ERC20 contract deployed"))

/-- The diagnostic emitted when the ERC20 handler is skipped. -/
def ehDiag : String := "ERC20Handler contract failed to deploy due to invalid bridge address"

/-- The diagnostic emitted when the generic handler is skipped. -/
def ghDiag : String := "GenericHandler contract failed to deploy due to invalid bridge address"

/-- Lines 191-210: if `args.bridgeAddress` is not syntactically valid,
log a diagnostic and return without deploying; otherwise deploy the ERC20
handler with `(bridgeAddress, [], [], [])` and record its address. -/
def deployERC20Handler (s : St) : DRes :=
  if isValidAddress s.args.bridgeAddress = false then
    Except.ok (pushLog s ehDiag)
  else
    match deployAndConfirm ContractKind.erc20Handler
        (CtorArgs.erc20HandlerArgs s.args.bridgeAddress [] [] []) s with
    | Except.error e => Except.error e
    | Except.ok (addr, s1) =>
      Except.ok (pushLog
        { s1 with args := { s1.args with erc20HandlerContract := some addr },
                  trace := s1.trace ++ [Event.recorded ContractKind.erc20Handler addr] }
        ("✓ ERC20Handler contract deployed"))

/-- Lines 212-231: the generic-handler analogue, deploying with
`(bridgeAddress, [], [], [], [])`. -/
def deployGenericHandler (s : St) : DRes :=
  if isValidAddress s.args.bridgeAddress = false then
    Except.ok (pushLog s ghDiag)
  else
    match deployAndConfirm ContractKind.genericHandler
        (CtorArgs.genericHandlerArgs s.args.bridgeAddress [] [] [] []) s with
    | Except.error e => Except.error e
    | Except.ok (addr, s1) =>
      Except.ok (pushLog
        { s1 with args := { s1.args with genericHandlerContract := some addr },
                  trace := s1.trace ++ [Event.recorded ContractKind.genericHandler addr] }
        ("✓ GenericHandler contract deployed"))

/-- Lines 233-246: deploy the chain-asset store contract with no
constructor arguments and record its address. -/
def deployAssetStore (s : St) : DRes :=
  match deployAndConfirm ContractKind.asset CtorArgs.assetArgs s with
  | Except.error e => Except.error e
  | Except.ok (addr, s1) =>
    Except.ok (pushLog
      { s1 with args := { s1.args with ChainAssetContract := some addr },
                trace := s1.trace ++ [Event.recorded ContractKind.asset addr] }
      ("✓ ChainAsset contract deployed"))

/-- Sequencing of `await` calls: an earlier throw propagates unchanged. -/
def andThen (r : DRes) (f : St → DRes) : DRes :=
  match r with
  | Except.error e => Except.error e
  | Except.ok s => f s

/-- One guarded step of the explicit branch: run `f` when the flag is set,
otherwise do nothing. -/
def condStep (flag : Bool) (f : St → DRes) (s : St) : DRes :=
  if flag then f s else Except.ok s

/-- Lines 53-58: the `--all` branch, deploying Bridge, ERC20Handler,
GenericHandler and ERC20Token in this order. -/
def allBranch (s : St) : DRes :=
  andThen (andThen (andThen (deployBridgeContract s)
    deployERC20Handler) deployGenericHandler) deployERC20

/-- Lines 58-82: the explicit branch: one guarded step per flag in the
fixed order bridge, erc20Handler, genericHandler, erc20, asset, then the
no-target check.  The source threads a `deployed` boolean that is set in
every taken branch (even when a handler skips itself) and is never unset;
since the five flags are never mutated, at line 80 `deployed` equals their
disjunction, which is how the final check is rendered here. -/
def explicitBranch (s : St) : DRes :=
  andThen (andThen (andThen (andThen (andThen
    (condStep s.args.bridge deployBridgeContract s)
    (fun t => condStep t.args.erc20Handler deployERC20Handler t))
    (fun t => condStep t.args.genericHandler deployGenericHandler t))
    (fun t => condStep t.args.erc20 deployERC20 t))
    (fun t => condStep t.args.asset deployAssetStore t))
    (fun t =>
      if t.args.bridge || t.args.erc20Handler || t.args.genericHandler ||
          t.args.erc20 || t.args.asset then Except.ok t
      else Except.error (DeployError.noTargetSpecified, t))

/-- Lines 85-87: after the selected branch, query the balance again and
record `cost := startBal - endBal` into the context. -/
def finishRun (startBal : Int) (r : DRes) : DRes :=
  match r with
  | Except.error e => Except.error e
  | Except.ok s3 =>
    match getBalance s3 with
    | Except.error e => Except.error e
    | Except.ok (endBal, s4) =>
      Except.ok { s4 with args := { s4.args with cost := some (startBal - endBal) } }

/-- Lines 49-87 of the action (after `setupParentArgs`): query the wallet
balance, log, run the selected branch, query the balance again and record
`cost := startBal - endBal` into the context.  (`displayLog` and
`createConfig`, lines 88-91, are modelled separately below.) -/
def runDeployment (a : Args) (env : Env) : DRes :=
  match getBalance { args := a, env := env, trace := [] } with
  | Except.error e => Except.error e
  | Except.ok (startBal, s1) =>
    let s2 := pushLog s1 ("Deploying contracts...")
    finishRun startBal (if s2.args.all then allBranch s2 else explicitBranch s2)

/-- Model of `BigNumber.toNumber()` (external library): succeeds exactly
when the value fits the JavaScript safe-integer range. -/
def toNumber (n : Int) : Option Int :=
  if n.natAbs ≤ 2 ^ 53 - 1 then some n else none

/-- The structured configuration document of lines 94-107, field for
field. -/
structure ChainConfig where
  name : String
  chainId : Nat
  endpoint : String
  bridge : String
  erc20Handler : Option String
  genericHandler : Option String
  gasLimit : Int
  maxGasPrice : Int
  startBlock : String
  http : String
  relayers : List String
  deriving DecidableEq, Repr

/-- Lines 94-112 (`createConfig`): build the configuration document;
`args.gasLimit.toNumber()` is evaluated first, then
`args.gasPrice.toNumber()`, and either overflow throws (`none`). -/
def createConfig (a : Args) : Option ChainConfig :=
  match toNumber a.gasLimit with
  | none => none
  | some gl =>
    match toNumber a.gasPrice with
    | none => none
    | some gp =>
      some { name := "eth", chainId := a.chainId, endpoint := a.url,
             bridge := a.bridgeAddress,
             erc20Handler := a.erc20HandlerContract,
             genericHandler := a.genericHandlerContract,
             gasLimit := gl, maxGasPrice := gp,
             startBlock := "0", http := "false", relayers := a.relayers }

/-- Left-pad a fraction rendering to 18 digits, as the ethers formatter
does. -/
def padFrac (s : String) : String :=
  String.mk (List.replicate (18 - s.length) '0') ++ s

/-- Trim trailing zeros of a fraction rendering, keeping at least one
digit. -/
def trimFrac (s : String) : String :=
  match s.toList.reverse.dropWhile (fun c => c = '0') with
  | [] => "0"
  | l => String.mk l.reverse

/-- Model of `ethers.utils.formatEther` (external library): a wei integer
rendered as a base-currency decimal string. -/
def formatEther (wei : Int) : String :=
  let n := wei.natAbs
  (if wei < 0 then ("-") else ("")) ++ toString (n / 10 ^ 18) ++ (".") ++
    trimFrac (padFrac (toString (n % 10 ^ 18)))

/-- Lines 114-150 (`displayLog`): the rendered summary as labelled lines,
in source order.  Each unset contract address renders the literal
`"Not Deployed"` (`args.bridgeAddress` is a string, falsy exactly when
empty; the other four fields are optional).  `formatEther(args.cost)`
throws when `cost` is still unset, modelled as `none`. -/
def displayLog (a : Args) : Option (List (String × String)) :=
  match a.cost with
  | none => none
  | some c =>
    some [("Url", a.url),
          ("Deployer", a.walletAddress),
          ("Gas Limit", toString a.gasLimit),
          ("Gas Price", toString a.gasPrice),
          ("Deploy Cost", formatEther c),
          ("Chain Id", toString a.chainId),
          ("Threshold", toString a.relayerThreshold),
          ("Relayers", String.intercalate (",") a.relayers),
          ("Bridge Fee", a.fee),
          ("Expiry", toString a.expiry),
          ("Bridge", if a.bridgeAddress = "" then "Not Deployed" else a.bridgeAddress),
          ("Erc20 Handler",
            match a.erc20HandlerContract with
            | some x => x
            | none => "Not Deployed"),
          ("Generic Handler",
            match a.genericHandlerContract with
            | some x => x
            | none => "Not Deployed"),
          ("Erc20",
            match a.erc20Contract with
            | some x => x
            | none => "Not Deployed"),
          ("Chain Asset",
            match a.ChainAssetContract with
            | some x => x
            | none => "Not Deployed")]

/-- The network calls of a trace. -/
def networkEvents (tr : List Event) : List Event :=
  tr.filter Event.isNetwork

/-- The constructor-argument lists of the deploy transactions of a trace,
in order. -/
def deployEvents (tr : List Event) : List CtorArgs :=
  tr.filterMap (fun e =>
    match e with
    | Event.deployTx ca => some ca
    | _ => none)

/-- The context field a contract kind is recorded into (`bridgeAddress`
for the bridge, the optional contract fields for the rest). -/
def fieldOf (a : Args) : ContractKind → Option String
  | ContractKind.bridge => some a.bridgeAddress
  | ContractKind.erc20Handler => a.erc20HandlerContract
  | ContractKind.genericHandler => a.genericHandlerContract
  | ContractKind.erc20 => a.erc20Contract
  | ContractKind.asset => a.ChainAssetContract

/-- The guard a kind's deploy function checks before deploying: the two
handler kinds require a syntactically valid bridge address. -/
def validFor : ContractKind → St → Prop
  | ContractKind.erc20Handler, s => isValidAddress s.args.bridgeAddress = true
  | ContractKind.genericHandler, s => isValidAddress s.args.bridgeAddress = true
  | _, _ => True

/-- The input parameters of the context (everything except the mutable
output fields), bundled for preservation statements. -/
def params (a : Args) :=
  (a.all, a.bridge, a.erc20Handler, a.genericHandler, a.erc20, a.asset, a.config,
   a.chainId, a.relayers, a.relayerThreshold, a.fee, a.expiry,
   a.erc20Name, a.erc20Symbol, a.erc20Decimals, a.gasPrice, a.gasLimit,
   a.url, a.walletAddress)

/-- The constructor-argument shape a single deploy step emits, stated
against the args record `sa` at the moment of the call: the Bridge is
constructed from `chainId`, the relayer list, the threshold, the parsed
fee and the expiry; each handler takes the `bridgeAddress` currently held
in the context followed by its empty initial lists; the token takes name,
symbol and decimals; the asset store takes nothing. -/
def stepShapeOk (sa : Args) : Event → Prop
  | Event.deployTx ca =>
    match ca with
    | CtorArgs.bridgeArgs c r t f x =>
        c = sa.chainId ∧ r = sa.relayers ∧ t = sa.relayerThreshold ∧
        parseEther sa.fee = some f ∧ x = sa.expiry
    | CtorArgs.erc20HandlerArgs br l1 l2 l3 =>
        br = sa.bridgeAddress ∧ l1 = [] ∧ l2 = [] ∧ l3 = []
    | CtorArgs.genericHandlerArgs br l1 l2 l3 l4 =>
        br = sa.bridgeAddress ∧ l1 = [] ∧ l2 = [] ∧ l3 = [] ∧ l4 = []
    | CtorArgs.erc20Args n sym d => n = sa.erc20Name ∧ sym = sa.erc20Symbol ∧ d = sa.erc20Decimals
    | CtorArgs.assetArgs => True
  | _ => True

/-- The fixed constructor-argument shape of the table in §4.1 of the
spec, stated against the invocation's input context `a` and the trace
prefix `pre` preceding the event: the Bridge row as in `stepShapeOk`, and
each handler's first constructor argument is the bridge address — either
the caller-supplied `a.bridgeAddress` or the address recorded by a
preceding Bridge deployment — followed by its empty initial lists. -/
def ctorShapeOk (a : Args) (pre : List Event) : Event → Prop
  | Event.deployTx ca =>
    match ca with
    | CtorArgs.bridgeArgs c r t f x =>
        c = a.chainId ∧ r = a.relayers ∧ t = a.relayerThreshold ∧
        parseEther a.fee = some f ∧ x = a.expiry
    | CtorArgs.erc20HandlerArgs br l1 l2 l3 =>
        (br = a.bridgeAddress ∨ Event.recorded ContractKind.bridge br ∈ pre) ∧
        l1 = [] ∧ l2 = [] ∧ l3 = []
    | CtorArgs.genericHandlerArgs br l1 l2 l3 l4 =>
        (br = a.bridgeAddress ∨ Event.recorded ContractKind.bridge br ∈ pre) ∧
        l1 = [] ∧ l2 = [] ∧ l3 = [] ∧ l4 = []
    | CtorArgs.erc20Args n sym d => n = a.erc20Name ∧ sym = a.erc20Symbol ∧ d = a.erc20Decimals
    | CtorArgs.assetArgs => True
  | _ => True

/-- Every event of the trace, at its position, has the fixed constructor
shape with respect to the prefix before it. -/
def traceShapeOk (a : Args) (tr : List Event) : Prop :=
  ∀ t1 e t2, tr = t1 ++ e :: t2 → ctorShapeOk a t1 e

/-- Shape invariant carried through a run: the trace is position-wise
well-shaped, and the `bridgeAddress` currently held in the context is
either the caller-supplied one or one recorded by a Bridge deployment in
the trace. -/
def ShapeInv (a0 : Args) (s : St) : Prop :=
  traceShapeOk a0 s.trace ∧
  (s.args.bridgeAddress = a0.bridgeAddress ∨
    Event.recorded ContractKind.bridge s.args.bridgeAddress ∈ s.trace)

/-- Every address recorded in the trace is still present in its context
field (the context is never rolled back). -/
def Ret (s : St) : Prop :=
  ∀ k a, Event.recorded k a ∈ s.trace → fieldOf s.args k = some a

/-- No address of kind `k` has been recorded yet. -/
def NoRec (k : ContractKind) (s : St) : Prop :=
  ∀ a, Event.recorded k a ∉ s.trace

/-- The handler invariant of §3 of the spec: a handler address field is
set only when the bridge address in the context is syntactically valid. -/
def HandlersValid (s : St) : Prop :=
  (∀ x, s.args.erc20HandlerContract = some x → isValidAddress s.args.bridgeAddress = true) ∧
  (∀ x, s.args.genericHandlerContract = some x → isValidAddress s.args.bridgeAddress = true)

/-- The trace ends with a network call (the failing one). -/
def endsNet (tr : List Event) : Prop :=
  ∃ t e, tr = t ++ [e] ∧ Event.isNetwork e = true

/-- Everything a single deploy step of kind `κ` guarantees, stated on the
carried state whether the step succeeded or threw: the input parameters,
the balance queue and the accumulated cost are untouched; the trace is
extended by events of the step's constructor shape (handlers carrying the
current `bridgeAddress`), recording at most the step's own kind and only
into its own (now matching) field; all other context fields are
untouched; the own field either keeps its value or holds an address
recorded in the trace; the own field changes only when the step's guard
held; and a network failure leaves a trace ending with the failing
call. -/
structure StepSpec (κ : ContractKind) (s : St) (r : DRes) : Prop where
  params_eq : params (resSt r).args = params s.args
  balances_eq : (resSt r).env.balances = s.env.balances
  cost_eq : (resSt r).args.cost = s.args.cost
  trace_ext : ∃ t, (resSt r).trace = s.trace ++ t
      ∧ (∀ e ∈ t, stepShapeOk s.args e)
      ∧ (∀ k a, Event.recorded k a ∈ t → k = κ ∧ fieldOf (resSt r).args k = some a)
  fields_other : ∀ k, k ≠ κ → fieldOf (resSt r).args k = fieldOf s.args k
  field_rec : fieldOf (resSt r).args κ = fieldOf s.args κ ∨
      ∃ x, fieldOf (resSt r).args κ = some x ∧ Event.recorded κ x ∈ (resSt r).trace
  guard_ok : fieldOf (resSt r).args κ ≠ fieldOf s.args κ → validFor κ s
  err_net : ∀ s', r = Except.error (DeployError.networkError, s') → endsNet s'.trace

/-- Facts accumulated along a branch, relative to the branch entry state
`s` and the invocation parameters `a0`: parameters preserved, only
fixed-shape events appended, recorded addresses retained, the handler
invariant (provided the entry had no handler recorded), balance queue and
cost untouched, no kind outside `done` recorded, and network failures
leaving a trace that ends with the failing call. -/
def FactsPack (a0 : Args) (s : St) (done : List ContractKind) (r : DRes) : Prop :=
  params (resSt r).args = params a0
  ∧ ShapeInv a0 (resSt r)
  ∧ Ret (resSt r)
  ∧ (s.args.erc20HandlerContract = none → s.args.genericHandlerContract = none →
      HandlersValid (resSt r))
  ∧ (resSt r).env.balances = s.env.balances
  ∧ (resSt r).args.cost = s.args.cost
  ∧ (∀ k, k ∉ done → NoRec k (resSt r))
  ∧ (∀ s', r = Except.error (DeployError.networkError, s') → endsNet s'.trace)

/-- All five contract kinds. -/
def allKinds : List ContractKind :=
  [ContractKind.asset, ContractKind.erc20, ContractKind.genericHandler,
   ContractKind.erc20Handler, ContractKind.bridge]

/-- A syntactically valid sample address (deployed bridge). -/
def addrA : String := "0xaaaaaaaaaaaaaaaaaaaaaaaaaaaaaaaaaaaaaaaa"

/-- A syntactically valid sample address. -/
def addrB : String := "0xbbbbbbbbbbbbbbbbbbbbbbbbbbbbbbbbbbbbbbbb"

/-- A syntactically valid sample address. -/
def addrC : String := "0xcccccccccccccccccccccccccccccccccccccccc"

/-- A syntactically valid sample address. -/
def addrD : String := "0xdddddddddddddddddddddddddddddddddddddddd"

/-- A baseline context: the default option values of `deployCmd` with
resolved connection data and no contract selected. -/
def baseArgs : Args where
  all := false
  bridge := false
  erc20Handler := false
  genericHandler := false
  erc20 := false
  asset := false
  config := false
  chainId := 1
  relayers := [addrC, addrD]
  relayerThreshold := 2
  fee := "0"
  expiry := 100
  erc20Name := "Token"
  erc20Symbol := "TOK"
  erc20Decimals := 18
  gasPrice := 20000000
  gasLimit := 8000000
  url := "http://localhost:8545"
  walletAddress := addrB
  bridgeAddress := ""
  erc20HandlerContract := none
  genericHandlerContract := none
  erc20Contract := none
  ChainAssetContract := none
  cost := none

/-- An oracle with one queued balance and no deployment outcomes. -/
def oneBalEnv : Env := { balances := [100], deploys := [] }

/-- An oracle with two queued balances and no deployment outcomes. -/
def twoBalEnv : Env := { balances := [100, 40], deploys := [] }

/-- An oracle confirming four deployments. -/
def fourOkEnv : Env :=
  { balances := [100, 40],
    deploys := [DeployOutcome.ok addrA, DeployOutcome.ok addrB,
                DeployOutcome.ok addrC, DeployOutcome.ok addrD] }

/-- An oracle whose first deployment is rejected at submission. -/
def submitFailEnv : Env := { balances := [100], deploys := [DeployOutcome.submitFail] }

/-- An oracle confirming one deployment. -/
def oneOkEnv : Env := { balances := [100, 40], deploys := [DeployOutcome.ok addrA] }

/-- The `--all` selection. -/
def allSelArgs : Args := { baseArgs with all := true }

/-- The `--erc20Handler`-only selection. -/
def ehSelArgs : Args := { baseArgs with erc20Handler := true }

/-- The `--bridge`-only selection. -/
def bridgeSelArgs : Args := { baseArgs with bridge := true }

/-- An `--asset` selection whose gas limit exceeds the JavaScript
safe-integer range. -/
def bigGasArgs : Args := { baseArgs with asset := true, gasLimit := 2 ^ 60 }

/-- A context as it stands just before `displayLog` when nothing was
deployed. -/
def costOnlyArgs : Args := { baseArgs with cost := some 60 }

/-- The trace prefix of the `--all` run against `fourOkEnv` up to (not
including) the ERC20-handler deploy transaction. -/
def c5pre : List Event :=
  [Event.balanceQuery addrB,
   Event.log ("Deploying contracts..."),
   Event.deployTx (CtorArgs.bridgeArgs 1 [addrC, addrD] 2 0 100),
   Event.confirmPoll ContractKind.bridge,
   Event.recorded ContractKind.bridge addrA,
   Event.log ("✓ Bridge contract deployed")]

/-- The remainder of that trace after the ERC20-handler deploy
transaction. -/
def c5post : List Event :=
  [Event.confirmPoll ContractKind.erc20Handler,
   Event.recorded ContractKind.erc20Handler addrB,
   Event.log ("✓ ERC20Handler contract deployed"),
   Event.deployTx (CtorArgs.genericHandlerArgs addrA [] [] [] []),
   Event.confirmPoll ContractKind.genericHandler,
   Event.recorded ContractKind.genericHandler addrC,
   Event.log ("✓ GenericHandler contract deployed"),
   Event.deployTx (CtorArgs.erc20Args "Token" "TOK" 18),
   Event.confirmPoll ContractKind.erc20,
   Event.recorded ContractKind.erc20 addrD,
   Event.log ("✓ ERC20 contract deployed"),
   Event.balanceQuery addrB]

@[simp]
theorem resSt_ok (s : St) : resSt (Except.ok s) = s := rfl

@[simp]
theorem resSt_error (e : DeployError) (s : St) :
    resSt (Except.error (e, s)) = s := rfl

theorem stepShapeOk_ctorShapeOk {sa a0 : Args} (hp : params sa = params a0)
    {pre : List Event}
    (horig : sa.bridgeAddress = a0.bridgeAddress ∨
      Event.recorded ContractKind.bridge sa.bridgeAddress ∈ pre)
    {e : Event} (hs : stepShapeOk sa e) : ctorShapeOk a0 pre e := by
  simp only [params, Prod.mk.injEq] at hp
  cases e with
  | deployTx ca =>
    cases ca with
    | bridgeArgs c r t f x => simp_all [stepShapeOk, ctorShapeOk]
    | erc20HandlerArgs br l1 l2 l3 =>
      obtain ⟨hbr, h1, h2, h3⟩ := hs
      exact ⟨hbr ▸ horig, h1, h2, h3⟩
    | genericHandlerArgs br l1 l2 l3 l4 =>
      obtain ⟨hbr, h1, h2, h3, h4⟩ := hs
      exact ⟨hbr ▸ horig, h1, h2, h3, h4⟩
    | erc20Args n sym d => simp_all [stepShapeOk, ctorShapeOk]
    | assetArgs => trivial
  | balanceQuery x => trivial
  | confirmPoll k => trivial
  | recorded k x => trivial
  | log m => trivial

/-- Appending well-placed events preserves position-wise shape. -/
theorem traceShapeOk_append {a0 : Args} {tr t : List Event}
    (h : traceShapeOk a0 tr)
    (ht : ∀ t1 e t2, t = t1 ++ e :: t2 → ctorShapeOk a0 (tr ++ t1) e) :
    traceShapeOk a0 (tr ++ t) := by
  intro t1 e t2 hsplit
  rcases List.append_eq_append_iff.mp hsplit with ⟨a', ha1, ha2⟩ | ⟨c', hc1, hc2⟩
  · rw [ha1]
    exact ht a' e t2 ha2
  · cases c' with
    | nil =>
      simp only [List.append_nil] at hc1
      have := ht [] e t2 (by simpa using hc2.symm)
      simpa [hc1] using this
    | cons x c'' =>
      injection hc2 with hx ht2
      subst hx
      exact h t1 e c'' (by rw [hc1])

/-- Appending a balance query keeps the trace position-wise
well-shaped. -/
theorem traceShapeOk_snoc_bq {a0 : Args} {tr : List Event} (h : traceShapeOk a0 tr)
    (w : String) : traceShapeOk a0 (tr ++ [Event.balanceQuery w]) := by
  refine traceShapeOk_append h ?_
  intro t1 e t2 hsplit
  cases t1 with
  | nil =>
    injection hsplit with h1 _
    rw [← h1]
    trivial
  | cons x t1' =>
    injection hsplit with _ h2
    simp at h2

theorem deployAndConfirm_cases (kind : ContractKind) (ca : CtorArgs) (s : St) :
    (∃ s1, deployAndConfirm kind ca s = Except.error (DeployError.networkError, s1) ∧
       s1.args = s.args ∧ s1.env.balances = s.env.balances ∧
       (s1.trace = s.trace ++ [Event.deployTx ca] ∨
        s1.trace = s.trace ++ [Event.deployTx ca, Event.confirmPoll kind]))
    ∨ (∃ addr rest s1, deployAndConfirm kind ca s = Except.ok (addr, s1) ∧
       s1.args = s.args ∧ s1.env.balances = s.env.balances ∧
       s.env.deploys = DeployOutcome.ok addr :: rest ∧ s1.env.deploys = rest ∧
       s1.trace = s.trace ++ [Event.deployTx ca, Event.confirmPoll kind]) := by
  unfold deployAndConfirm
  rcases hd : s.env.deploys with _ | ⟨o, rest⟩
  · exact Or.inl ⟨{ s with trace := s.trace ++ [Event.deployTx ca] },
      by simp [hd], rfl, rfl, Or.inl rfl⟩
  · cases o with
    | submitFail =>
      exact Or.inl ⟨{ s with env := { s.env with deploys := rest },
                             trace := s.trace ++ [Event.deployTx ca] },
        by simp [hd], rfl, rfl, Or.inl rfl⟩
    | confirmFail =>
      exact Or.inl ⟨{ s with env := { s.env with deploys := rest },
                             trace := s.trace ++ [Event.deployTx ca, Event.confirmPoll kind] },
        by simp [hd], rfl, rfl, Or.inr rfl⟩
    | ok addr =>
      exact Or.inr ⟨addr, rest, { s with env := { s.env with deploys := rest },
                                         trace := s.trace ++ [Event.deployTx ca, Event.confirmPoll kind] },
        by simp [hd], rfl, rfl, hd ▸ rfl, rfl, rfl⟩

theorem deployERC20Handler_spec (s : St) :
    StepSpec ContractKind.erc20Handler s (deployERC20Handler s) := by
  unfold deployERC20Handler
  cases hv : isValidAddress s.args.bridgeAddress with
  | false =>
    rw [if_pos rfl]
    exact ⟨rfl, rfl, rfl, ⟨[Event.log ehDiag], by simp [pushLog], by simp [stepShapeOk], by simp⟩,
      fun k _ => rfl, Or.inl rfl, fun h => absurd rfl h, fun s' h => by simp at h⟩
  | true =>
    rw [if_neg (by simp)]
    rcases deployAndConfirm_cases ContractKind.erc20Handler
        (CtorArgs.erc20HandlerArgs s.args.bridgeAddress [] [] []) s with
      ⟨s1, heq, ha, hb, ht⟩ | ⟨addr, rest, s1, heq, ha, hb, _, _, ht⟩
    · rw [heq]
      refine ⟨by rw [resSt_error, ha], by rw [resSt_error, hb], by rw [resSt_error, ha],
        ?_, fun k _ => by rw [resSt_error, ha], Or.inl (by rw [resSt_error, ha]),
        fun h => absurd (by rw [resSt_error, ha]) h,
        fun s' h => ?_⟩
      · rcases ht with ht | ht
        · exact ⟨[Event.deployTx (CtorArgs.erc20HandlerArgs s.args.bridgeAddress [] [] [])],
            by rw [resSt_error, ht], by simp [stepShapeOk], by simp⟩
        · exact ⟨[Event.deployTx (CtorArgs.erc20HandlerArgs s.args.bridgeAddress [] [] []),
            Event.confirmPoll ContractKind.erc20Handler],
            by rw [resSt_error, ht], by simp [stepShapeOk], by simp⟩
      · injection h with h
        injection h with _ h
        subst h
        rcases ht with ht | ht
        · exact ⟨s.trace, Event.deployTx (CtorArgs.erc20HandlerArgs s.args.bridgeAddress [] [] []),
            ht, rfl⟩
        · exact ⟨s.trace ++ [Event.deployTx (CtorArgs.erc20HandlerArgs s.args.bridgeAddress [] [] [])],
            Event.confirmPoll ContractKind.erc20Handler, by simpa using ht, rfl⟩
    · rw [heq]
      refine ⟨by simp [params, pushLog, ha], by simp [pushLog, hb], by simp [pushLog, ha],
        ⟨[Event.deployTx (CtorArgs.erc20HandlerArgs s.args.bridgeAddress [] [] []),
          Event.confirmPoll ContractKind.erc20Handler,
          Event.recorded ContractKind.erc20Handler addr,
          Event.log ("✓ ERC20Handler contract deployed")],
          by simp [pushLog, ht], by simp [stepShapeOk],
          by intro k a hk; simp at hk; simp [hk, pushLog, fieldOf]⟩,
        ?_, Or.inr ⟨addr, by simp [pushLog, fieldOf], by simp [pushLog, ht]⟩,
        fun _ => by simp [validFor, hv], fun s' h => by simp at h⟩
      · intro k hk
        cases k <;> simp_all [fieldOf, pushLog]

theorem deployGenericHandler_spec (s : St) :
    StepSpec ContractKind.genericHandler s (deployGenericHandler s) := by
  unfold deployGenericHandler
  cases hv : isValidAddress s.args.bridgeAddress with
  | false =>
    rw [if_pos rfl]
    exact ⟨rfl, rfl, rfl, ⟨[Event.log ghDiag], by simp [pushLog], by simp [stepShapeOk], by simp⟩,
      fun k _ => rfl, Or.inl rfl, fun h => absurd rfl h, fun s' h => by simp at h⟩
  | true =>
    rw [if_neg (by simp)]
    rcases deployAndConfirm_cases ContractKind.genericHandler
        (CtorArgs.genericHandlerArgs s.args.bridgeAddress [] [] [] []) s with
      ⟨s1, heq, ha, hb, ht⟩ | ⟨addr, rest, s1, heq, ha, hb, _, _, ht⟩
    · rw [heq]
      refine ⟨by rw [resSt_error, ha], by rw [resSt_error, hb], by rw [resSt_error, ha],
        ?_, fun k _ => by rw [resSt_error, ha], Or.inl (by rw [resSt_error, ha]),
        fun h => absurd (by rw [resSt_error, ha]) h,
        fun s' h => ?_⟩
      · rcases ht with ht | ht
        · exact ⟨[Event.deployTx (CtorArgs.genericHandlerArgs s.args.bridgeAddress [] [] [] [])],
            by rw [resSt_error, ht], by simp [stepShapeOk], by simp⟩
        · exact ⟨[Event.deployTx (CtorArgs.genericHandlerArgs s.args.bridgeAddress [] [] [] []),
            Event.confirmPoll ContractKind.genericHandler],
            by rw [resSt_error, ht], by simp [stepShapeOk], by simp⟩
      · injection h with h
        injection h with _ h
        subst h
        rcases ht with ht | ht
        · exact ⟨s.trace,
            Event.deployTx (CtorArgs.genericHandlerArgs s.args.bridgeAddress [] [] [] []), ht, rfl⟩
        · exact ⟨s.trace ++ [Event.deployTx (CtorArgs.genericHandlerArgs s.args.bridgeAddress [] [] [] [])],
            Event.confirmPoll ContractKind.genericHandler, by simpa using ht, rfl⟩
    · rw [heq]
      refine ⟨by simp [params, pushLog, ha], by simp [pushLog, hb], by simp [pushLog, ha],
        ⟨[Event.deployTx (CtorArgs.genericHandlerArgs s.args.bridgeAddress [] [] [] []),
          Event.confirmPoll ContractKind.genericHandler,
          Event.recorded ContractKind.genericHandler addr,
          Event.log ("✓ GenericHandler contract deployed")],
          by simp [pushLog, ht], by simp [stepShapeOk],
          by intro k a hk; simp at hk; simp [hk, pushLog, fieldOf]⟩,
        ?_, Or.inr ⟨addr, by simp [pushLog, fieldOf], by simp [pushLog, ht]⟩,
        fun _ => by simp [validFor, hv], fun s' h => by simp at h⟩
      · intro k hk
        cases k <;> simp_all [fieldOf, pushLog]

theorem deployBridgeContract_spec (s : St) :
    StepSpec ContractKind.bridge s (deployBridgeContract s) := by
  unfold deployBridgeContract
  rcases hf : parseEther s.args.fee with _ | f
  · exact ⟨rfl, rfl, rfl, ⟨[], by simp, by simp, by simp⟩,
      fun k _ => rfl, Or.inl rfl, fun h => absurd rfl h, fun s' h => by simp at h⟩
  · rcases deployAndConfirm_cases ContractKind.bridge
        (CtorArgs.bridgeArgs s.args.chainId s.args.relayers s.args.relayerThreshold
          f s.args.expiry) s with
      ⟨s1, heq, ha, hb, ht⟩ | ⟨addr, rest, s1, heq, ha, hb, _, _, ht⟩
    · simp only [heq]
      refine ⟨by rw [resSt_error, ha], by rw [resSt_error, hb], by rw [resSt_error, ha],
        ?_, fun k _ => by rw [resSt_error, ha], Or.inl (by rw [resSt_error, ha]),
        fun _ => trivial, fun s' h => ?_⟩
      · rcases ht with ht | ht
        · exact ⟨[Event.deployTx (CtorArgs.bridgeArgs s.args.chainId s.args.relayers
            s.args.relayerThreshold f s.args.expiry)],
            by rw [resSt_error, ht], by simp [stepShapeOk, hf], by simp⟩
        · exact ⟨[Event.deployTx (CtorArgs.bridgeArgs s.args.chainId s.args.relayers
            s.args.relayerThreshold f s.args.expiry),
            Event.confirmPoll ContractKind.bridge],
            by rw [resSt_error, ht], by simp [stepShapeOk, hf], by simp⟩
      · injection h with h
        injection h with _ h
        subst h
        rcases ht with ht | ht
        · exact ⟨s.trace, Event.deployTx (CtorArgs.bridgeArgs s.args.chainId s.args.relayers
            s.args.relayerThreshold f s.args.expiry), ht, rfl⟩
        · exact ⟨s.trace ++ [Event.deployTx (CtorArgs.bridgeArgs s.args.chainId s.args.relayers
            s.args.relayerThreshold f s.args.expiry)],
            Event.confirmPoll ContractKind.bridge, by simpa using ht, rfl⟩
    · simp only [heq]
      refine ⟨by simp [params, pushLog, ha], by simp [pushLog, hb], by simp [pushLog, ha],
        ⟨[Event.deployTx (CtorArgs.bridgeArgs s.args.chainId s.args.relayers
            s.args.relayerThreshold f s.args.expiry),
          Event.confirmPoll ContractKind.bridge,
          Event.recorded ContractKind.bridge addr,
          Event.log ("✓ Bridge contract deployed")],
          by simp [pushLog, ht], by simp [stepShapeOk, hf],
          by intro k a hk; simp at hk; simp [hk, pushLog, fieldOf]⟩,
        ?_, Or.inr ⟨addr, by simp [pushLog, fieldOf], by simp [pushLog, ht]⟩,
        fun _ => trivial, fun s' h => by simp at h⟩
      · intro k hk
        cases k <;> simp_all [fieldOf, pushLog]

theorem deployERC20_spec (s : St) :
    StepSpec ContractKind.erc20 s (deployERC20 s) := by
  unfold deployERC20
  rcases deployAndConfirm_cases ContractKind.erc20
      (CtorArgs.erc20Args s.args.erc20Name s.args.erc20Symbol s.args.erc20Decimals) s with
    ⟨s1, heq, ha, hb, ht⟩ | ⟨addr, rest, s1, heq, ha, hb, _, _, ht⟩
  · rw [heq]
    refine ⟨by rw [resSt_error, ha], by rw [resSt_error, hb], by rw [resSt_error, ha],
      ?_, fun k _ => by rw [resSt_error, ha], Or.inl (by rw [resSt_error, ha]),
        fun _ => trivial, fun s' h => ?_⟩
    · rcases ht with ht | ht
      · exact ⟨[Event.deployTx (CtorArgs.erc20Args s.args.erc20Name s.args.erc20Symbol
          s.args.erc20Decimals)], by rw [resSt_error, ht], by simp [stepShapeOk], by simp⟩
      · exact ⟨[Event.deployTx (CtorArgs.erc20Args s.args.erc20Name s.args.erc20Symbol
          s.args.erc20Decimals), Event.confirmPoll ContractKind.erc20],
          by rw [resSt_error, ht], by simp [stepShapeOk], by simp⟩
    · injection h with h
      injection h with _ h
      subst h
      rcases ht with ht | ht
      · exact ⟨s.trace, Event.deployTx (CtorArgs.erc20Args s.args.erc20Name s.args.erc20Symbol
          s.args.erc20Decimals), ht, rfl⟩
      · exact ⟨s.trace ++ [Event.deployTx (CtorArgs.erc20Args s.args.erc20Name s.args.erc20Symbol
          s.args.erc20Decimals)], Event.confirmPoll ContractKind.erc20, by simpa using ht, rfl⟩
  · rw [heq]
    refine ⟨by simp [params, pushLog, ha], by simp [pushLog, hb], by simp [pushLog, ha],
      ⟨[Event.deployTx (CtorArgs.erc20Args s.args.erc20Name s.args.erc20Symbol s.args.erc20Decimals),
        Event.confirmPoll ContractKind.erc20,
        Event.recorded ContractKind.erc20 addr,
        Event.log ("✓ ERC20 contract deployed")],
        by simp [pushLog, ht], by simp [stepShapeOk],
        by intro k a hk; simp at hk; simp [hk, pushLog, fieldOf]⟩,
      ?_, Or.inr ⟨addr, by simp [pushLog, fieldOf], by simp [pushLog, ht]⟩,
        fun _ => trivial, fun s' h => by simp at h⟩
    · intro k hk
      cases k <;> simp_all [fieldOf, pushLog]

theorem deployAssetStore_spec (s : St) :
    StepSpec ContractKind.asset s (deployAssetStore s) := by
  unfold deployAssetStore
  rcases deployAndConfirm_cases ContractKind.asset CtorArgs.assetArgs s with
    ⟨s1, heq, ha, hb, ht⟩ | ⟨addr, rest, s1, heq, ha, hb, _, _, ht⟩
  · rw [heq]
    refine ⟨by rw [resSt_error, ha], by rw [resSt_error, hb], by rw [resSt_error, ha],
      ?_, fun k _ => by rw [resSt_error, ha], Or.inl (by rw [resSt_error, ha]),
        fun _ => trivial, fun s' h => ?_⟩
    · rcases ht with ht | ht
      · exact ⟨[Event.deployTx CtorArgs.assetArgs],
          by rw [resSt_error, ht], by simp [stepShapeOk], by simp⟩
      · exact ⟨[Event.deployTx CtorArgs.assetArgs, Event.confirmPoll ContractKind.asset],
          by rw [resSt_error, ht], by simp [stepShapeOk], by simp⟩
    · injection h with h
      injection h with _ h
      subst h
      rcases ht with ht | ht
      · exact ⟨s.trace, Event.deployTx CtorArgs.assetArgs, ht, rfl⟩
      · exact ⟨s.trace ++ [Event.deployTx CtorArgs.assetArgs],
          Event.confirmPoll ContractKind.asset, by simpa using ht, rfl⟩
  · rw [heq]
    refine ⟨by simp [params, pushLog, ha], by simp [pushLog, hb], by simp [pushLog, ha],
      ⟨[Event.deployTx CtorArgs.assetArgs,
        Event.confirmPoll ContractKind.asset,
        Event.recorded ContractKind.asset addr,
        Event.log ("✓ ChainAsset contract deployed")],
        by simp [pushLog, ht], by simp [stepShapeOk],
        by intro k a hk; simp at hk; simp [hk, pushLog, fieldOf]⟩,
      ?_, Or.inr ⟨addr, by simp [pushLog, fieldOf], by simp [pushLog, ht]⟩,
        fun _ => trivial, fun s' h => by simp at h⟩
    · intro k hk
      cases k <;> simp_all [fieldOf, pushLog]

@[simp]
theorem fieldOf_bridge (a : Args) :
    fieldOf a ContractKind.bridge = some a.bridgeAddress := rfl

@[simp]
theorem fieldOf_eh (a : Args) :
    fieldOf a ContractKind.erc20Handler = a.erc20HandlerContract := rfl

@[simp]
theorem fieldOf_gh (a : Args) :
    fieldOf a ContractKind.genericHandler = a.genericHandlerContract := rfl

@[simp]
theorem fieldOf_erc20 (a : Args) :
    fieldOf a ContractKind.erc20 = a.erc20Contract := rfl

@[simp]
theorem fieldOf_asset (a : Args) :
    fieldOf a ContractKind.asset = a.ChainAssetContract := rfl

/-- A step neither clears nor breaks the recorded-address retention. -/
theorem ret_step {κ : ContractKind} {s : St} {r : DRes} (hs : StepSpec κ s r)
    (hR : Ret s) (hN : NoRec κ s) : Ret (resSt r) := by
  intro k a hmem
  obtain ⟨t, htr, _, hrec⟩ := hs.trace_ext
  rw [htr, List.mem_append] at hmem
  rcases hmem with hmem | hmem
  · rcases eq_or_ne k κ with hk | hk
    · exact absurd hmem (hk ▸ hN a)
    · rw [hs.fields_other k hk]
      exact hR k a hmem
  · exact (hrec k a hmem).2

/-- A step records no kind other than its own. -/
theorem noRec_step {κ : ContractKind} {s : St} {r : DRes} (hs : StepSpec κ s r)
    {k : ContractKind} (hk : k ≠ κ) (hN : NoRec k s) : NoRec k (resSt r) := by
  intro a hmem
  obtain ⟨t, htr, _, hrec⟩ := hs.trace_ext
  rw [htr, List.mem_append] at hmem
  rcases hmem with hmem | hmem
  · exact hN a hmem
  · exact hk (hrec k a hmem).1

/-- A step preserves the shape invariant: it adds only events whose
constructor arguments are well-shaped at their position (its handler
transactions carry the current, well-originated bridge address), and any
new bridge address it installs is recorded in the trace. -/
theorem shape_step {κ : ContractKind} {s : St} {r : DRes} (hs : StepSpec κ s r)
    {a0 : Args} (hp : params s.args = params a0)
    (hsi : ShapeInv a0 s) : ShapeInv a0 (resSt r) := by
  obtain ⟨t, htr, hshape, hrec⟩ := hs.trace_ext
  obtain ⟨hts, horig⟩ := hsi
  constructor
  · rw [htr]
    refine traceShapeOk_append hts ?_
    intro t1 e t2 hsplit
    refine stepShapeOk_ctorShapeOk hp ?_
      (hshape e (by rw [hsplit]; exact List.mem_append_right t1 (List.mem_cons_self e t2)))
    rcases horig with h | h
    · exact Or.inl h
    · exact Or.inr (List.mem_append_left t1 h)
  · rcases eq_or_ne κ ContractKind.bridge with hb | hb
    · subst hb
      rcases hs.field_rec with hsame | ⟨x, hx, hmem⟩
      · simp only [fieldOf_bridge, Option.some.injEq] at hsame
        rw [hsame]
        rcases horig with h | h
        · exact Or.inl h
        · refine Or.inr ?_
          rw [htr]
          exact List.mem_append_left t h
      · simp only [fieldOf_bridge, Option.some.injEq] at hx
        rw [hx]
        exact Or.inr hmem
    · have hfo := hs.fields_other ContractKind.bridge (Ne.symm hb)
      simp only [fieldOf_bridge, Option.some.injEq] at hfo
      rw [hfo]
      rcases horig with h | h
      · exact Or.inl h
      · refine Or.inr ?_
        rw [htr]
        exact List.mem_append_left t h

/-- A non-bridge step preserves the handler invariant. -/
theorem hv_step {κ : ContractKind} {s : St} {r : DRes} (hs : StepSpec κ s r)
    (hκ : κ ≠ ContractKind.bridge) (hv : HandlersValid s) : HandlersValid (resSt r) := by
  obtain ⟨hv1, hv2⟩ := hv
  have hbr : (resSt r).args.bridgeAddress = s.args.bridgeAddress := by
    have := hs.fields_other ContractKind.bridge (fun h => hκ h.symm)
    simpa using this
  constructor
  · intro x hx
    rw [hbr]
    rcases eq_or_ne ContractKind.erc20Handler κ with hk | hk
    · rcases eq_or_ne (fieldOf (resSt r).args κ) (fieldOf s.args κ) with hch | hch
      · exact hv1 x (by rw [← fieldOf_eh, hk, hch, ← hk, fieldOf_eh] at hx; exact hx)
      · have := hs.guard_ok hch
        rw [← hk] at this
        exact this
    · exact hv1 x (by rw [← fieldOf_eh, hs.fields_other _ hk, fieldOf_eh] at hx; exact hx)
  · intro x hx
    rw [hbr]
    rcases eq_or_ne ContractKind.genericHandler κ with hk | hk
    · rcases eq_or_ne (fieldOf (resSt r).args κ) (fieldOf s.args κ) with hch | hch
      · exact hv2 x (by rw [← fieldOf_gh, hk, hch, ← hk, fieldOf_gh] at hx; exact hx)
      · have := hs.guard_ok hch
        rw [← hk] at this
        exact this
    · exact hv2 x (by rw [← fieldOf_gh, hs.fields_other _ hk, fieldOf_gh] at hx; exact hx)

/-- Composing a pack with a further non-bridge step. -/
theorem andThen_pack {a0 : Args} {s : St} {done : List ContractKind} {r : DRes}
    {κ : ContractKind} {f : St → DRes}
    (hp : FactsPack a0 s done r)
    (hf : ∀ u, StepSpec κ u (f u))
    (hκd : κ ∉ done) (hκb : κ ≠ ContractKind.bridge) :
    FactsPack a0 s (κ :: done) (andThen r f) := by
  obtain ⟨h1, h2, h3, h4, h5, h6, h7, h8⟩ := hp
  cases r with
  | error e =>
    exact ⟨h1, h2, h3, h4, h5, h6, fun k hk => h7 k (fun hm => hk (List.mem_cons_of_mem _ hm)),
      fun s' he => h8 s' he⟩
  | ok s1 =>
    have hs := hf s1
    have hres : resSt (Except.ok s1) = s1 := rfl
    rw [hres] at h1 h2 h3 h4 h5 h6 h7
    have hAT : andThen (Except.ok s1) f = f s1 := rfl
    rw [hAT]
    refine ⟨hs.params_eq.trans h1, shape_step hs h1 h2, ret_step hs h3 (h7 κ hκd),
      fun he hg => hv_step hs hκb (h4 he hg), hs.balances_eq.trans h5, hs.cost_eq.trans h6,
      fun k hk => ?_, fun s' he => hs.err_net s' he⟩
    · rw [List.mem_cons, not_or] at hk
      exact noRec_step hs hk.1 (h7 k hk.2)

/-- The entry pack: nothing has happened yet. -/
theorem start_pack (a0 : Args) (s : St)
    (h1 : params s.args = params a0)
    (h2 : ShapeInv a0 s)
    (h3 : Ret s)
    (h7 : ∀ k, NoRec k s) :
    FactsPack a0 s [] (Except.ok s) := by
  refine ⟨h1, h2, h3, fun he hg => ?_, rfl, rfl, fun k _ => h7 k, fun s' he => by simp at he⟩
  · exact ⟨fun x hx => absurd (he ▸ hx) (by simp), fun x hx => absurd (hg ▸ hx) (by simp)⟩

/-- Composing a pack with the bridge step, which may only come first
(before any other deploy step), so the handler fields still hold their
entry values. -/
theorem bridge_pack {a0 : Args} {s : St} {r : DRes} {f : St → DRes}
    (hp : FactsPack a0 s [] r)
    (hf : ∀ u, StepSpec ContractKind.bridge u (f u))
    (hfix : ∀ s1, r = Except.ok s1 → s1.args.erc20HandlerContract = s.args.erc20HandlerContract
      ∧ s1.args.genericHandlerContract = s.args.genericHandlerContract) :
    FactsPack a0 s [ContractKind.bridge] (andThen r f) := by
  obtain ⟨h1, h2, h3, h4, h5, h6, h7, h8⟩ := hp
  cases r with
  | error e => exact ⟨h1, h2, h3, h4, h5, h6, fun k _ => h7 k (by simp), fun s' he => h8 s' he⟩
  | ok s1 =>
    have hs := hf s1
    have hres : resSt (Except.ok s1) = s1 := rfl
    rw [hres] at h1 h2 h3 h4 h5 h6 h7
    have hAT : andThen (Except.ok s1) f = f s1 := rfl
    rw [hAT]
    obtain ⟨hfe, hfg⟩ := hfix s1 rfl
    refine ⟨hs.params_eq.trans h1, shape_step hs h1 h2, ret_step hs h3 (h7 _ (by simp)),
      fun he hg => ?_, hs.balances_eq.trans h5, hs.cost_eq.trans h6,
      fun k hk => ?_, fun s' he => hs.err_net s' he⟩
    · have he1 : (resSt (f s1)).args.erc20HandlerContract = none := by
        have := hs.fields_other ContractKind.erc20Handler (by simp)
        simp only [fieldOf_eh] at this
        rw [this, hfe, he]
      have hg1 : (resSt (f s1)).args.genericHandlerContract = none := by
        have := hs.fields_other ContractKind.genericHandler (by simp)
        simp only [fieldOf_gh] at this
        rw [this, hfg, hg]
      exact ⟨fun x hx => absurd (he1 ▸ hx) (by simp),
        fun x hx => absurd (hg1 ▸ hx) (by simp)⟩
    · rw [List.mem_cons, not_or] at hk
      exact noRec_step hs hk.1 (h7 k (by simp))

/-- The trailing no-target check of the explicit branch preserves a pack:
it touches nothing and throws `noTargetSpecified`, not a network error. -/
theorem check_pack {a0 : Args} {s : St} {done : List ContractKind} {r : DRes}
    (hp : FactsPack a0 s done r) :
    FactsPack a0 s done (andThen r (fun t =>
      if t.args.bridge || t.args.erc20Handler || t.args.genericHandler ||
          t.args.erc20 || t.args.asset then Except.ok t
      else Except.error (DeployError.noTargetSpecified, t))) := by
  obtain ⟨h1, h2, h3, h4, h5, h6, h7, h8⟩ := hp
  cases r with
  | error e => exact ⟨h1, h2, h3, h4, h5, h6, h7, fun s' he => h8 s' he⟩
  | ok s1 =>
    have hres : resSt (Except.ok s1) = s1 := rfl
    rw [hres] at h1 h2 h3 h4 h5 h6 h7
    have hAT : andThen (Except.ok s1) (fun t =>
        if t.args.bridge || t.args.erc20Handler || t.args.genericHandler ||
            t.args.erc20 || t.args.asset then Except.ok t
        else Except.error (DeployError.noTargetSpecified, t)) =
        (if s1.args.bridge || s1.args.erc20Handler || s1.args.genericHandler ||
            s1.args.erc20 || s1.args.asset then Except.ok s1
        else Except.error (DeployError.noTargetSpecified, s1)) := rfl
    rw [hAT]
    by_cases hc : (s1.args.bridge || s1.args.erc20Handler || s1.args.genericHandler ||
        s1.args.erc20 || s1.args.asset) = true
    · rw [if_pos hc]
      exact ⟨h1, h2, h3, h4, h5, h6, h7, fun s' he => by simp at he⟩
    · rw [if_neg hc]
      refine ⟨h1, h2, h3, h4, h5, h6, h7, fun s' he => ?_⟩
      · injection he with he
        injection he with he _
        exact absurd he.symm (by simp)

/-- Doing nothing is a valid step of any kind. -/
theorem stepSpec_refl (κ : ContractKind) (s : St) : StepSpec κ s (Except.ok s) :=
  ⟨rfl, rfl, rfl, ⟨[], by simp, by simp, by simp⟩, fun k _ => rfl, Or.inl rfl,
    fun h => absurd rfl h, fun s' h => by simp at h⟩

/-- A guarded step satisfies the spec of its deploy function. -/
theorem condStep_spec {κ : ContractKind} {f : St → DRes}
    (hf : ∀ u, StepSpec κ u (f u)) (flag : Bool) (s : St) :
    StepSpec κ s (condStep flag f s) := by
  cases flag
  · simp only [condStep, Bool.false_eq_true, if_false]
    exact stepSpec_refl κ s
  · simp only [condStep, if_true]
    exact hf s

/-- Characterization of the balance query. -/
theorem getBalance_cases (s : St) :
    (s.env.balances = [] ∧ getBalance s = Except.error (DeployError.networkError,
      { s with trace := s.trace ++ [Event.balanceQuery s.args.walletAddress] }))
    ∨ (∃ b rest, s.env.balances = b :: rest ∧
      getBalance s = Except.ok (b,
        { s with env := { s.env with balances := rest },
                 trace := s.trace ++ [Event.balanceQuery s.args.walletAddress] })) := by
  unfold getBalance
  rcases hb : s.env.balances with _ | ⟨b, rest⟩
  · exact Or.inl ⟨rfl, by simp [hb]⟩
  · exact Or.inr ⟨b, rest, rfl, by simp [hb]⟩

/-- The `--all` branch accumulates a full pack, deploying only the four
kinds of lines 53-58. -/
theorem allBranch_pack (a0 : Args) (s : St)
    (h1 : params s.args = params a0)
    (h2 : ShapeInv a0 s)
    (h3 : Ret s)
    (h7 : ∀ k, NoRec k s) :
    FactsPack a0 s [ContractKind.erc20, ContractKind.genericHandler,
      ContractKind.erc20Handler, ContractKind.bridge] (allBranch s) := by
  have e : allBranch s = andThen (andThen (andThen (andThen (Except.ok s)
      deployBridgeContract) deployERC20Handler) deployGenericHandler) deployERC20 := rfl
  rw [e]
  refine andThen_pack (andThen_pack (andThen_pack (bridge_pack
      (start_pack a0 s h1 h2 h3 h7) deployBridgeContract_spec ?_)
      deployERC20Handler_spec (by decide) (by decide))
      deployGenericHandler_spec (by decide) (by decide))
      deployERC20_spec (by decide) (by decide)
  · intro s1 h
    injection h with h
    rw [← h]
    exact ⟨rfl, rfl⟩

/-- The explicit branch accumulates a full pack: guarded steps in the
fixed order of lines 58-79 and the no-target check of lines 80-82. -/
theorem explicitBranch_pack (a0 : Args) (s : St)
    (h1 : params s.args = params a0)
    (h2 : ShapeInv a0 s)
    (h3 : Ret s)
    (h7 : ∀ k, NoRec k s) :
    FactsPack a0 s [ContractKind.asset, ContractKind.erc20, ContractKind.genericHandler,
      ContractKind.erc20Handler, ContractKind.bridge] (explicitBranch s) := by
  have e : explicitBranch s = andThen (andThen (andThen (andThen (andThen (andThen
      (Except.ok s)
      (fun t => condStep t.args.bridge deployBridgeContract t))
      (fun t => condStep t.args.erc20Handler deployERC20Handler t))
      (fun t => condStep t.args.genericHandler deployGenericHandler t))
      (fun t => condStep t.args.erc20 deployERC20 t))
      (fun t => condStep t.args.asset deployAssetStore t))
      (fun t =>
        if t.args.bridge || t.args.erc20Handler || t.args.genericHandler ||
            t.args.erc20 || t.args.asset then Except.ok t
        else Except.error (DeployError.noTargetSpecified, t)) := rfl
  rw [e]
  refine check_pack (andThen_pack (andThen_pack (andThen_pack (andThen_pack (bridge_pack
      (start_pack a0 s h1 h2 h3 h7)
      (fun u => condStep_spec deployBridgeContract_spec u.args.bridge u) ?_)
      (fun u => condStep_spec deployERC20Handler_spec u.args.erc20Handler u)
      (by decide) (by decide))
      (fun u => condStep_spec deployGenericHandler_spec u.args.genericHandler u)
      (by decide) (by decide))
      (fun u => condStep_spec deployERC20_spec u.args.erc20 u)
      (by decide) (by decide))
      (fun u => condStep_spec deployAssetStore_spec u.args.asset u)
      (by decide) (by decide))
  · intro s1 h
    injection h with h
    rw [← h]
    exact ⟨rfl, rfl⟩

/-- Enlarging the `done` list weakens a pack. -/
theorem factsPack_mono {a0 : Args} {s : St} {done done' : List ContractKind} {r : DRes}
    (hsub : ∀ k, k ∈ done → k ∈ done') (hp : FactsPack a0 s done r) :
    FactsPack a0 s done' r := by
  obtain ⟨h1, h2, h3, h4, h5, h6, h7, h8⟩ := hp
  exact ⟨h1, h2, h3, h4, h5, h6, fun k hk => h7 k (fun hm => hk (hsub k hm)), h8⟩

/-- The selected branch (line 53: `--all`, else the explicit branch)
accumulates a full pack. -/
theorem branch_pack (a : Args) (s2 : St)
    (hargs : s2.args = a)
    (hsh : ShapeInv a s2)
    (hret : Ret s2)
    (hnr : ∀ k, NoRec k s2) :
    FactsPack a s2 allKinds (if a.all then allBranch s2 else explicitBranch s2) := by
  have h1 : params s2.args = params a := by rw [hargs]
  cases hall : a.all
  · rw [if_neg (by simp)]
    exact explicitBranch_pack a s2 h1 hsh hret hnr
  · rw [if_pos rfl]
    refine factsPack_mono ?_ (allBranch_pack a s2 h1 hsh hret hnr)
    intro k hk
    simp only [allKinds, List.mem_cons] at hk ⊢
    tauto

/-- The final balance query and cost assignment preserve all accumulated
facts and determine the recorded cost. -/
theorem finish_facts (a : Args) (s2 : St) (startBal : Int) (r : DRes)
    (hp : FactsPack a s2 allKinds r) :
    params (resSt (finishRun startBal r)).args = params a
    ∧ ShapeInv a (resSt (finishRun startBal r))
    ∧ Ret (resSt (finishRun startBal r))
    ∧ (s2.args.erc20HandlerContract = none → s2.args.genericHandlerContract = none →
        HandlersValid (resSt (finishRun startBal r)))
    ∧ (∀ s', finishRun startBal r = Except.error (DeployError.networkError, s') →
        endsNet s'.trace)
    ∧ (∀ st, finishRun startBal r = Except.ok st →
        ∃ b2 rest2, s2.env.balances = b2 :: rest2 ∧
          st.args.cost = some (startBal - b2)) := by
  obtain ⟨h1, h2, h3, h4, h5, h6, _, h8⟩ := hp
  cases r with
  | error e =>
    exact ⟨h1, h2, h3, h4, fun s' he => h8 s' he, fun st h => by simp [finishRun] at h⟩
  | ok s3 =>
    have hres : resSt (Except.ok s3) = s3 := rfl
    rw [hres] at h1 h2 h3 h4 h5 h6
    rcases getBalance_cases s3 with ⟨hemp, heq⟩ | ⟨b2, rest2, hb2, heq⟩
    · simp only [finishRun, heq, resSt_error]
      refine ⟨h1, ⟨traceShapeOk_snoc_bq h2.1 s3.args.walletAddress, ?_⟩, ?_,
        fun he hg => h4 he hg, ?_, fun st h => by simp at h⟩
      · rcases h2.2 with h | h
        · exact Or.inl h
        · exact Or.inr (List.mem_append_left _ h)
      · intro k x hm
        rcases List.mem_append.mp hm with hm | hm
        · exact h3 k x hm
        · exact absurd hm (by simp)
      · intro s' h
        injection h with h
        injection h with _ h
        rw [← h]
        exact ⟨s3.trace, Event.balanceQuery s3.args.walletAddress, rfl, rfl⟩
    · simp only [finishRun, heq, resSt_ok]
      refine ⟨h1, ⟨traceShapeOk_snoc_bq h2.1 s3.args.walletAddress, ?_⟩, ?_,
        fun he hg => h4 he hg, fun s' h => by simp at h, ?_⟩
      · rcases h2.2 with h | h
        · exact Or.inl h
        · exact Or.inr (List.mem_append_left _ h)
      · intro k x hm
        have hfld : ∀ k0, fieldOf { s3.args with cost := some (startBal - b2) } k0 =
            fieldOf s3.args k0 := by
          intro k0
          cases k0 <;> rfl
        rcases List.mem_append.mp hm with hm | hm
        · rw [hfld]
          exact h3 k x hm
        · exact absurd hm (by simp)
      · intro st h
        injection h with h
        rw [← h]
        refine ⟨b2, rest2, ?_, rfl⟩
        rw [← h5]
        exact hb2

/-- The master account of one invocation: parameters survive into the
final (or thrown) state; every deploy transaction of the trace has the
fixed constructor-argument shape; every recorded address is retained;
starting from a context with no handler recorded, a handler field is set
only under a valid bridge address; a network failure leaves a trace that
ends with the failing call; and a successful run consumes exactly two
queued balances, recording their difference as the cost. -/
theorem runDeployment_master (a : Args) (env : Env) :
    params (resSt (runDeployment a env)).args = params a
    ∧ traceShapeOk a (resSt (runDeployment a env)).trace
    ∧ Ret (resSt (runDeployment a env))
    ∧ (a.erc20HandlerContract = none → a.genericHandlerContract = none →
        HandlersValid (resSt (runDeployment a env)))
    ∧ (∀ s', runDeployment a env = Except.error (DeployError.networkError, s') →
        endsNet s'.trace)
    ∧ (∀ st, runDeployment a env = Except.ok st →
        ∃ b1 b2 rest, env.balances = b1 :: b2 :: rest ∧ st.args.cost = some (b1 - b2)) := by
  rcases getBalance_cases { args := a, env := env, trace := [] } with
    ⟨hemp, heq⟩ | ⟨b1, rest1, hb1, heq⟩
  · simp only [runDeployment, heq]
    refine ⟨rfl, ?_, ?_, ?_, ?_, ?_⟩
    · refine traceShapeOk_snoc_bq ?_ a.walletAddress
      intro t1 e t2 h
      exact absurd h (by simp)
    · intro k x hm
      simp at hm
    · intro he hg
      exact ⟨fun x hx => absurd (he ▸ hx) (by simp),
        fun x hx => absurd (hg ▸ hx) (by simp)⟩
    · intro s' h
      injection h with h
      injection h with _ h
      rw [← h]
      exact ⟨[], Event.balanceQuery a.walletAddress, rfl, rfl⟩
    · intro st h
      simp at h
  · simp only at hb1
    have heq' : getBalance { args := a, env := env, trace := [] } =
        Except.ok (b1, { args := a,
                         env := { balances := rest1, deploys := env.deploys },
                         trace := [Event.balanceQuery a.walletAddress] }) := heq
    simp only [runDeployment, heq']
    have hpack := branch_pack a
      { args := a,
        env := { balances := rest1, deploys := env.deploys },
        trace := [Event.balanceQuery a.walletAddress,
                  Event.log ("Deploying contracts...")] }
      rfl
      ⟨by
        intro t1 e t2 h
        have he : e ∈ [Event.balanceQuery a.walletAddress,
            Event.log ("Deploying contracts...")] := by
          have h2 : [Event.balanceQuery a.walletAddress,
              Event.log ("Deploying contracts...")] = t1 ++ e :: t2 := h
          rw [h2]
          exact List.mem_append_right t1 (List.mem_cons_self e t2)
        simp at he
        rcases he with he | he <;> (rw [he]; trivial),
       Or.inl rfl⟩
      (by intro k x hm; simp at hm)
      (by intro k x hm; simp at hm)
    have hfin := finish_facts a _ b1 _ hpack
    obtain ⟨g1, g2, g3, g4, g5, g6⟩ := hfin
    refine ⟨?_, ?_, ?_, ?_, ?_, ?_⟩
    · exact g1
    · exact g2.1
    · exact g3
    · intro he hg
      exact g4 he hg
    · exact g5
    · intro st h
      obtain ⟨b2, rest2, hrest, hcost⟩ := g6 st h
      have hrest1 : rest1 = b2 :: rest2 := hrest
      rw [hb1, hrest1]
      exact ⟨b1, b2, rest2, rfl, hcost⟩

/-- C3: on any invocation starting from a context with both handler
address fields unset, the final context (whether the run succeeded or
threw) has a handler address field set only if the bridge address held in
the context is syntactically valid — no execution path sets a handler
address without the validity check having passed. -/
theorem c3_handler_set_requires_valid_bridge (a : Args) (env : Env)
    (he : a.erc20HandlerContract = none) (hg : a.genericHandlerContract = none) :
    (∀ x, (resSt (runDeployment a env)).args.erc20HandlerContract = some x →
      isValidAddress (resSt (runDeployment a env)).args.bridgeAddress = true)
    ∧ (∀ x, (resSt (runDeployment a env)).args.genericHandlerContract = some x →
      isValidAddress (resSt (runDeployment a env)).args.bridgeAddress = true) :=
  (runDeployment_master a env).2.2.2.1 he hg

theorem c3_witness :
    allSelArgs.erc20HandlerContract = none ∧ allSelArgs.genericHandlerContract = none ∧
    ((∀ x, (resSt (runDeployment allSelArgs fourOkEnv)).args.erc20HandlerContract = some x →
      isValidAddress (resSt (runDeployment allSelArgs fourOkEnv)).args.bridgeAddress = true)
    ∧ (∀ x, (resSt (runDeployment allSelArgs fourOkEnv)).args.genericHandlerContract = some x →
      isValidAddress (resSt (runDeployment allSelArgs fourOkEnv)).args.bridgeAddress = true)) :=
  ⟨rfl, rfl, c3_handler_set_requires_valid_bridge allSelArgs fourOkEnv rfl rfl⟩

/-- C5: every deploy transaction issued by any invocation carries exactly
the fixed constructor-argument list of the table: the Bridge gets
`(chainId, relayers, relayerThreshold, parseEther fee, expiry)`; each
handler gets the bridge address — the caller-supplied one or the address
recorded by a preceding Bridge deployment in the trace — followed by its
three (resp. four) empty lists; the token gets
`(name, symbol, decimals)`; and the asset store gets nothing. -/
theorem c5_ctor_args_fixed_shape (a : Args) (env : Env) :
    traceShapeOk a (resSt (runDeployment a env)).trace :=
  (runDeployment_master a env).2.1

theorem c5_witness :
    (resSt (runDeployment allSelArgs fourOkEnv)).trace =
      c5pre ++ Event.deployTx (CtorArgs.erc20HandlerArgs addrA [] [] []) :: c5post
    ∧ ctorShapeOk allSelArgs c5pre
        (Event.deployTx (CtorArgs.erc20HandlerArgs addrA [] [] [])) :=
  ⟨by decide, c5_ctor_args_fixed_shape allSelArgs fourOkEnv c5pre
    (Event.deployTx (CtorArgs.erc20HandlerArgs addrA [] [] [])) c5post (by decide)⟩

/-- C6: whenever the invocation reaches the report (the run returns
successfully), the recorded cost is exactly the first queued balance
(queried before the first deployment) minus the second (queried after the
last), as exact integer subtraction. -/
theorem c6_cost_is_exact_balance_difference (a : Args) (env : Env) (st : St)
    (h : runDeployment a env = Except.ok st) :
    ∃ b1 b2 rest, env.balances = b1 :: b2 :: rest ∧ st.args.cost = some (b1 - b2) :=
  (runDeployment_master a env).2.2.2.2.2 st h

theorem c6_witness :
    runDeployment ehSelArgs twoBalEnv = Except.ok (resSt (runDeployment ehSelArgs twoBalEnv)) ∧
    (∃ b1 b2 rest, twoBalEnv.balances = b1 :: b2 :: rest ∧
      (resSt (runDeployment ehSelArgs twoBalEnv)).args.cost = some (b1 - b2)) :=
  ⟨rfl, c6_cost_is_exact_balance_difference ehSelArgs twoBalEnv
    (resSt (runDeployment ehSelArgs twoBalEnv)) rfl⟩

/-- C7: a network failure (rejected submission, failed confirmation or
failed balance query) propagates immediately — the thrown state's trace
ends with the failing network call, so nothing further was attempted —
and every contract address recorded before the failure is still recorded
in the thrown context (no rollback). -/
theorem c7_failure_propagates_and_context_retained (a : Args) (env : Env) (st : St)
    (h : runDeployment a env = Except.error (DeployError.networkError, st)) :
    endsNet st.trace
    ∧ (∀ k x, Event.recorded k x ∈ st.trace → fieldOf st.args k = some x) := by
  have hm := runDeployment_master a env
  refine ⟨hm.2.2.2.2.1 st h, ?_⟩
  have hr := hm.2.2.1
  rw [h] at hr
  exact hr

theorem c7_witness :
    runDeployment bridgeSelArgs submitFailEnv =
      Except.error (DeployError.networkError, resSt (runDeployment bridgeSelArgs submitFailEnv)) ∧
    (endsNet (resSt (runDeployment bridgeSelArgs submitFailEnv)).trace
    ∧ (∀ k x, Event.recorded k x ∈ (resSt (runDeployment bridgeSelArgs submitFailEnv)).trace →
        fieldOf (resSt (runDeployment bridgeSelArgs submitFailEnv)).args k = some x)) :=
  ⟨rfl, c7_failure_propagates_and_context_retained bridgeSelArgs submitFailEnv
    (resSt (runDeployment bridgeSelArgs submitFailEnv)) rfl⟩

/-- C9: whenever `createConfig` produces a configuration document, that
document carries the fixed fields `startBlock = "0"` and `http = "false"`,
independent of any flag or context field. -/
theorem c9_config_fixed_fields (a : Args) (c : ChainConfig)
    (h : createConfig a = some c) : c.startBlock = "0" ∧ c.http = "false" := by
  unfold createConfig at h
  rcases hgl : toNumber a.gasLimit with _ | gl
  · rw [hgl] at h
    simp at h
  · rw [hgl] at h
    rcases hgp : toNumber a.gasPrice with _ | gp
    · rw [hgp] at h
      simp at h
    · rw [hgp] at h
      injection h with h
      rw [← h]
      exact ⟨rfl, rfl⟩

theorem c9_witness :
    ∃ c, createConfig baseArgs = some c ∧ c.startBlock = "0" ∧ c.http = "false" := by
  rcases hc : createConfig baseArgs with _ | c
  · exact absurd hc (by decide)
  · exact ⟨c, rfl, c9_config_fixed_fields baseArgs c hc⟩

/-- C10: `createConfig` is not total — for a well-formed context whose gas
limit exceeds the JavaScript safe-integer range the deployment itself
succeeds, yet `toNumber` fails and config emission aborts. -/
theorem c10_config_emission_overflow :
    runDeployment bigGasArgs oneOkEnv =
      Except.ok (resSt (runDeployment bigGasArgs oneOkEnv))
    ∧ (resSt (runDeployment bigGasArgs oneOkEnv)).args.gasLimit = 2 ^ 60
    ∧ createConfig (resSt (runDeployment bigGasArgs oneOkEnv)).args = none := by
  refine ⟨rfl, by decide, by decide⟩

/-- C8: `displayLog` on a well-formed context (cost computed) in which no
contract address field has been set always succeeds and renders the
literal marker "Not Deployed" for all five contract address lines. -/
theorem c8_summary_renders_not_deployed (a : Args) (c : Int)
    (hc : a.cost = some c) (hbr : a.bridgeAddress = "")
    (heh : a.erc20HandlerContract = none) (hgh : a.genericHandlerContract = none)
    (he2 : a.erc20Contract = none) (hca : a.ChainAssetContract = none) :
    ∃ l, displayLog a = some l
      ∧ ("Bridge", "Not Deployed") ∈ l
      ∧ ("Erc20 Handler", "Not Deployed") ∈ l
      ∧ ("Generic Handler", "Not Deployed") ∈ l
      ∧ ("Erc20", "Not Deployed") ∈ l
      ∧ ("Chain Asset", "Not Deployed") ∈ l := by
  simp only [displayLog, hc, hbr, heh, hgh, he2, hca, if_pos]
  refine ⟨_, rfl, ?_, ?_, ?_, ?_, ?_⟩ <;> simp

theorem c8_witness :
    costOnlyArgs.cost = some 60 ∧ costOnlyArgs.bridgeAddress = "" ∧
    (∃ l, displayLog costOnlyArgs = some l
      ∧ ("Bridge", "Not Deployed") ∈ l
      ∧ ("Erc20 Handler", "Not Deployed") ∈ l
      ∧ ("Generic Handler", "Not Deployed") ∈ l
      ∧ ("Erc20", "Not Deployed") ∈ l
      ∧ ("Chain Asset", "Not Deployed") ∈ l) :=
  ⟨rfl, rfl, c8_summary_renders_not_deployed costOnlyArgs 60 rfl rfl rfl rfl rfl rfl⟩

/-- With no selection flag set, the explicit branch performs nothing and
throws `noTargetSpecified` (lines 80-82). -/
theorem explicitBranch_no_target (s : St)
    (hbf : s.args.bridge = false) (hef : s.args.erc20Handler = false)
    (hgf : s.args.genericHandler = false) (he2f : s.args.erc20 = false)
    (haf : s.args.asset = false) :
    explicitBranch s = Except.error (DeployError.noTargetSpecified, s) := by
  simp [explicitBranch, condStep, andThen, hbf, hef, hgf, he2f, haf]

/-- C1 as stated is false on the code: the action queries the wallet
balance (line 51) before the explicit-selection check can throw (line 81),
so an empty explicit selection fails with `noTargetSpecified` only after
one network call, not zero. -/
theorem c1_counterexample :
    ∃ st, runDeployment baseArgs oneBalEnv =
        Except.error (DeployError.noTargetSpecified, st)
      ∧ networkEvents st.trace ≠ [] :=
  ⟨resSt (runDeployment baseArgs oneBalEnv), rfl, by decide⟩

/-- C1 (amended): with an explicit selection requesting nothing, the run
fails with `noTargetSpecified` after exactly one network call — the
initial balance query — and no deploy transaction or confirmation poll is
ever issued. -/
theorem c1_no_target_after_one_balance_query (a : Args) (env : Env)
    (hall : a.all = false) (hbf : a.bridge = false) (hef : a.erc20Handler = false)
    (hgf : a.genericHandler = false) (he2f : a.erc20 = false) (haf : a.asset = false)
    (b : Int) (bs : List Int) (hbal : env.balances = b :: bs) :
    ∃ st, runDeployment a env = Except.error (DeployError.noTargetSpecified, st)
      ∧ networkEvents st.trace = [Event.balanceQuery a.walletAddress]
      ∧ deployEvents st.trace = [] := by
  have heq' : getBalance { args := a, env := env, trace := [] } =
      Except.ok (b, { args := a, env := { balances := bs, deploys := env.deploys },
                      trace := [Event.balanceQuery a.walletAddress] }) := by
    unfold getBalance
    simp [hbal]
  simp only [runDeployment, heq', pushLog, hall, Bool.false_eq_true, if_false]
  rw [explicitBranch_no_target _ hbf hef hgf he2f haf]
  exact ⟨_, rfl, rfl, rfl⟩

theorem c1_witness :
    baseArgs.all = false ∧ baseArgs.bridge = false ∧ baseArgs.erc20Handler = false ∧
    baseArgs.genericHandler = false ∧ baseArgs.erc20 = false ∧ baseArgs.asset = false ∧
    oneBalEnv.balances = 100 :: [] ∧
    (∃ st, runDeployment baseArgs oneBalEnv =
        Except.error (DeployError.noTargetSpecified, st)
      ∧ networkEvents st.trace = [Event.balanceQuery baseArgs.walletAddress]
      ∧ deployEvents st.trace = []) :=
  ⟨rfl, rfl, rfl, rfl, rfl, rfl, rfl,
    c1_no_target_after_one_balance_query baseArgs oneBalEnv rfl rfl rfl rfl rfl rfl
      100 [] rfl⟩

/-- C2: under `--all` with a confirming chain, exactly four deploy
transactions are issued, in the order Bridge, ERC20Handler,
GenericHandler, ERC20Token, and both handlers are constructed with the
address recorded by the preceding Bridge deployment as their first
constructor argument. -/
theorem c2_all_deploys_four_in_order (a : Args) (env : Env)
    (hall : a.all = true)
    (f : Int) (hf : parseEther a.fee = some f)
    (a1 a2 a3 a4 : String) (ds : List DeployOutcome)
    (hd : env.deploys = [DeployOutcome.ok a1, DeployOutcome.ok a2,
      DeployOutcome.ok a3, DeployOutcome.ok a4] ++ ds)
    (hv : isValidAddress a1 = true)
    (b1 b2 : Int) (bs : List Int) (hbal : env.balances = b1 :: b2 :: bs) :
    ∃ st, runDeployment a env = Except.ok st
      ∧ deployEvents st.trace =
        [CtorArgs.bridgeArgs a.chainId a.relayers a.relayerThreshold f a.expiry,
         CtorArgs.erc20HandlerArgs a1 [] [] [],
         CtorArgs.genericHandlerArgs a1 [] [] [] [],
         CtorArgs.erc20Args a.erc20Name a.erc20Symbol a.erc20Decimals]
      ∧ st.args.bridgeAddress = a1 := by
  have heq' : getBalance { args := a, env := env, trace := [] } =
      Except.ok (b1, { args := a, env := { balances := b2 :: bs, deploys := env.deploys },
                       trace := [Event.balanceQuery a.walletAddress] }) := by
    unfold getBalance
    simp [hbal]
  simp only [runDeployment, heq', pushLog, hall, if_true]
  simp only [allBranch, andThen, deployBridgeContract, deployERC20Handler,
    deployGenericHandler, deployERC20, deployAndConfirm, pushLog, finishRun,
    getBalance, hf, hd, hv]
  simp [deployEvents, hv]

theorem c2_witness :
    allSelArgs.all = true ∧ parseEther allSelArgs.fee = some 0 ∧
    fourOkEnv.deploys = [DeployOutcome.ok addrA, DeployOutcome.ok addrB,
      DeployOutcome.ok addrC, DeployOutcome.ok addrD] ++ [] ∧
    isValidAddress addrA = true ∧
    fourOkEnv.balances = 100 :: 40 :: [] ∧
    (∃ st, runDeployment allSelArgs fourOkEnv = Except.ok st
      ∧ deployEvents st.trace =
        [CtorArgs.bridgeArgs allSelArgs.chainId allSelArgs.relayers
          allSelArgs.relayerThreshold 0 allSelArgs.expiry,
         CtorArgs.erc20HandlerArgs addrA [] [] [],
         CtorArgs.genericHandlerArgs addrA [] [] [] [],
         CtorArgs.erc20Args allSelArgs.erc20Name allSelArgs.erc20Symbol
           allSelArgs.erc20Decimals]
      ∧ st.args.bridgeAddress = addrA) :=
  ⟨rfl, rfl, rfl, by decide, rfl,
    c2_all_deploys_four_in_order allSelArgs fourOkEnv rfl 0 rfl
      addrA addrB addrC addrD [] rfl (by decide) 100 40 [] rfl⟩

/-- With only `--erc20Handler` set and an invalid bridge address in the
context, the explicit branch logs the diagnostic, skips the deployment
and succeeds. -/
theorem explicitBranch_eh_skip (s : St)
    (hbf : s.args.bridge = false) (hef : s.args.erc20Handler = true)
    (hgf : s.args.genericHandler = false) (he2f : s.args.erc20 = false)
    (haf : s.args.asset = false) (hinv : isValidAddress s.args.bridgeAddress = false) :
    explicitBranch s = Except.ok (pushLog s ehDiag) := by
  simp [explicitBranch, condStep, andThen, deployERC20Handler, pushLog,
    hbf, hef, hgf, he2f, haf, hinv]

/-- C4: with selection `--erc20Handler` only and no bridge address present
or supplied, the run terminates without error, the `erc20HandlerContract`
field remains unset, the diagnostic is emitted, and no deploy transaction
is ever issued. -/
theorem c4_handler_skip_nonfatal (a : Args) (env : Env)
    (hall : a.all = false) (hbf : a.bridge = false) (hef : a.erc20Handler = true)
    (hgf : a.genericHandler = false) (he2f : a.erc20 = false) (haf : a.asset = false)
    (hbr : a.bridgeAddress = "") (hehc : a.erc20HandlerContract = none)
    (b1 b2 : Int) (bs : List Int) (hbal : env.balances = b1 :: b2 :: bs) :
    ∃ st, runDeployment a env = Except.ok st
      ∧ st.args.erc20HandlerContract = none
      ∧ Event.log ehDiag ∈ st.trace
      ∧ deployEvents st.trace = [] := by
  have heq' : getBalance { args := a, env := env, trace := [] } =
      Except.ok (b1, { args := a, env := { balances := b2 :: bs, deploys := env.deploys },
                       trace := [Event.balanceQuery a.walletAddress] }) := by
    unfold getBalance
    simp [hbal]
  have hinv : isValidAddress a.bridgeAddress = false := by
    rw [hbr]
    decide
  simp only [runDeployment, heq', pushLog, hall, Bool.false_eq_true, if_false]
  rw [explicitBranch_eh_skip _ hbf hef hgf he2f haf hinv]
  simp only [finishRun, getBalance, pushLog]
  refine ⟨_, rfl, hehc, ?_, rfl⟩
  simp

theorem c4_witness :
    ehSelArgs.all = false ∧ ehSelArgs.erc20Handler = true ∧
    ehSelArgs.bridgeAddress = "" ∧ ehSelArgs.erc20HandlerContract = none ∧
    twoBalEnv.balances = 100 :: 40 :: [] ∧
    (∃ st, runDeployment ehSelArgs twoBalEnv = Except.ok st
      ∧ st.args.erc20HandlerContract = none
      ∧ Event.log ehDiag ∈ st.trace
      ∧ deployEvents st.trace = []) :=
  ⟨rfl, rfl, rfl, rfl, rfl,
    c4_handler_skip_nonfatal ehSelArgs twoBalEnv rfl rfl rfl rfl rfl rfl rfl rfl
      100 40 [] rfl⟩

end EthDeploy
